import Mathlib

/-
Verification of the surface-patch sampling and ARAP training core of the
implicit-arap repository (files src/iarap/render/sdf_renderer.py,
src/iarap/model/neural_rtf.py, src/iarap/train/deform_trainer.py).

Tensors of shape (n, 3) are embedded as lists (or index functions) of 3-vectors;
per-row tensor arithmetic becomes arithmetic on the Vec3 type below.  Rational
numbers stand for exact float arithmetic where no square root is needed; the
level-set projector, which normalizes gradients with a Euclidean norm, is
embedded over the reals.
-/

/-- Row vector with three components, embedding a torch tensor of shape (3,)
(one row of an (n, 3) tensor). -/
structure Vec3 (α : Type) where
  x : α
  y : α
  z : α
deriving DecidableEq, Repr

namespace Vec3

variable {α : Type} [CommRing α]

/-- Componentwise addition, embedding torch elementwise `+`. -/
def add (a b : Vec3 α) : Vec3 α := ⟨a.x + b.x, a.y + b.y, a.z + b.z⟩

/-- Componentwise subtraction, embedding torch elementwise `-`. -/
def sub (a b : Vec3 α) : Vec3 α := ⟨a.x - b.x, a.y - b.y, a.z - b.z⟩

/-- Scalar multiplication, embedding torch `scalar * tensor` broadcasting. -/
def smul (c : α) (a : Vec3 α) : Vec3 α := ⟨c * a.x, c * a.y, c * a.z⟩

/-- Dot product of two 3-vectors. -/
def dot (a b : Vec3 α) : α := a.x * b.x + a.y * b.y + a.z * b.z

/-- Squared Euclidean norm (sum of squared components). -/
def normSq (a : Vec3 α) : α := a.dot a

/-- Zero vector. -/
def zero : Vec3 α := ⟨0, 0, 0⟩

instance : Add (Vec3 α) := ⟨Vec3.add⟩
instance : Sub (Vec3 α) := ⟨Vec3.sub⟩
instance : SMul α (Vec3 α) := ⟨Vec3.smul⟩
instance : Zero (Vec3 α) := ⟨Vec3.zero⟩

end Vec3

/-- Matrix with three rows and three columns, embedding a torch tensor of
shape (3, 3) (one slice of an (n, 3, 3) tensor); stored by rows. -/
structure Mat3 (α : Type) where
  r0 : Vec3 α
  r1 : Vec3 α
  r2 : Vec3 α
deriving DecidableEq, Repr

namespace Mat3

variable {α : Type} [CommRing α]

/-- Matrix-vector product, embedding torch `m @ v` for a (3, 3) by (3, 1)
batched product. -/
def mulVec (m : Mat3 α) (v : Vec3 α) : Vec3 α :=
  ⟨m.r0.dot v, m.r1.dot v, m.r2.dot v⟩

/-- Identity matrix. -/
def id : Mat3 α := ⟨⟨1, 0, 0⟩, ⟨0, 1, 0⟩, ⟨0, 0, 1⟩⟩

end Mat3

/-
Level-set projector of src/iarap/render/sdf_renderer.py (SDFRenderer).
The SDF and its spatial gradient enter `project_nearest` only through the
calls `self.sdf_functional(query)` and `gradient(dist, query)`; they are
embedded as function parameters `f` and `g`.  The tensor-plumbing calls
(`from_numpy`, `.float()`, `.to(device)`, `.view(-1, 3)`, `.requires_grad_()`,
`.detach()`) do not change any coordinate value and are dropped.
-/

namespace SDFRenderer

/-- Epsilon of torch.nn.functional.normalize (default eps argument 1e-12),
used by the call `F.normalize(gradient(dist, query), dim=-1)` at
src/iarap/render/sdf_renderer.py line 88. -/
noncomputable def normEps : ℝ := 1e-12

/-- Euclidean norm of a 3-vector, the `dim=-1` row norm taken by
torch.nn.functional.normalize. -/
noncomputable def norm2 (v : Vec3 ℝ) : ℝ := Real.sqrt v.normSq

/-- Embedding of `F.normalize(v, dim=-1)`: torch divides each row by
`max(norm(row), eps)`, so a zero row is mapped to zero rather than NaN. -/
noncomputable def normalizeEps (v : Vec3 ℝ) : Vec3 ℝ :=
  (max (norm2 v) normEps)⁻¹ • v

/-- Update applied to one point in one iteration of
`SDFRenderer.project_nearest` (lines 87-89): with `dist = f(p) - level`,
the new point is `p - dist * F.normalize(grad f p)`. -/
noncomputable def pointStep (f : Vec3 ℝ → ℝ) (g : Vec3 ℝ → Vec3 ℝ)
    (level : ℝ) (p : Vec3 ℝ) : Vec3 ℝ :=
  p - (f p - level) • normalizeEps (g p)

/-- Embedding of `SDFRenderer.project_nearest(query, n_its, level)`
(src/iarap/render/sdf_renderer.py lines 84-90): a for-loop of exactly
`n_its` rounds, each of which recomputes `dist` and the normalized gradient
on the whole batch and updates every row; then the batch is returned. -/
noncomputable def project_nearest (f : Vec3 ℝ → ℝ) (g : Vec3 ℝ → Vec3 ℝ)
    (level : ℝ) : ℕ → List (Vec3 ℝ) → List (Vec3 ℝ)
  | 0, query => query
  | Nat.succ n, query =>
      project_nearest f g level n
        (query.map (fun p => p - (f p - level) • normalizeEps (g p)))

end SDFRenderer

/-
Rigidity and handle loss.  The class PatchARAPLoss (iarap.model.nn.loss) is
called from src/iarap/train/deform_trainer.py line 144 but its file is not
under src/; the definitions below are modelled from the specification of the
Rigidity Loss Evaluator (spec section 4.5).
-/

namespace PatchARAPLoss

variable {α : Type} [CommRing α]

/-- Modelled from the spec: deformed vertex of the Rigidity Loss Evaluator,
v· = R v + t with the per-vertex predicted rotation and translation
(PatchARAPLoss is not under src/). -/
def deformedVertex (R : Mat3 α) (t : Vec3 α) (v : Vec3 α) : Vec3 α :=
  R.mulVec v + t

/-- Data of one patch as handed to the loss: vertex positions and the
per-vertex predicted rotation and translation, indexed by vertex number. -/
structure PatchData (α : Type) where
  verts : ℕ → Vec3 α
  rots : ℕ → Mat3 α
  transls : ℕ → Vec3 α

/-- Modelled from the spec: rigidity error of the edge (i, j) measured under
the rotation of vertex k, the squared norm of the difference between the
deformed edge vector and the original edge vector rotated by vertex k's
rotation (PatchARAPLoss is not under src/). -/
def edgeErrUnder (p : PatchData α) (i j k : ℕ) : α :=
  Vec3.normSq
    ((deformedVertex (p.rots i) (p.transls i) (p.verts i) -
        deformedVertex (p.rots j) (p.transls j) (p.verts j)) -
      (p.rots k).mulVec (p.verts i - p.verts j))

/-- Modelled from the spec: accumulated contribution of one edge (i, j), its
rigidity error evaluated once under vertex i's rotation and once under vertex
j's rotation, both added (PatchARAPLoss is not under src/). -/
def edgeContribution (p : PatchData α) (e : ℕ × ℕ) : α :=
  edgeErrUnder p e.1 e.2 e.1 + edgeErrUnder p e.1 e.2 e.2

/-- Edges implied by one triangle of the triangulation. -/
def triEdges (t : ℕ × ℕ × ℕ) : List (ℕ × ℕ) :=
  [(t.1, t.2.1), (t.2.1, t.2.2), (t.2.2, t.1)]

/-- Edges implied by the whole triangulation. -/
def edgesOf (tris : List (ℕ × ℕ × ℕ)) : List (ℕ × ℕ) :=
  tris.flatMap triEdges

/-- Modelled from the spec: rigidity term, accumulated over every edge implied
by the shared triangulation, within each patch independently, then over all
patches; sum aggregation is used here, and the configurable mean divides by a
constant count so it preserves the zero case (PatchARAPLoss is not under
src/). -/
def rigidityTerm (patches : List (PatchData α)) (tris : List (ℕ × ℕ × ℕ)) : α :=
  (patches.map (fun p => ((edgesOf tris).map (edgeContribution p)).sum)).sum

/-- Modelled from the spec: contribution of one moving handle, the squared
difference between the predicted transform applied to the handle point and
the prescribed target transform applied to the same point (PatchARAPLoss is
not under src/). -/
def movingHandleContribution (predR : Mat3 α) (predT : Vec3 α)
    (tgtR : Mat3 α) (tgtT : Vec3 α) (p : Vec3 α) : α :=
  Vec3.normSq (deformedVertex predR predT p - deformedVertex tgtR tgtT p)

/-- Modelled from the spec: contribution of one static handle, the deviation
of the predicted transform from the identity (zero rotation, zero
translation), measured at the handle point (PatchARAPLoss is not under
src/). -/
def staticHandleContribution (predR : Mat3 α) (predT : Vec3 α)
    (p : Vec3 α) : α :=
  Vec3.normSq (deformedVertex predR predT p - p)

end PatchARAPLoss

/-
Rotation construction of the deformation network.  NeuralRTF.forward
(src/iarap/model/neural_rtf.py lines 103-112) splits the network output into
three Euler angles and a translation and calls euler_to_rotation
(iarap.utils), which is not under src/; the spec states that the rotation is
constructed from the Euler angles by composing axis rotations, guaranteeing a
proper rotation by construction.
-/

namespace NeuralRTF

/-- Modelled from the spec: rotation about the x axis by the first Euler
angle, one factor of the euler_to_rotation helper (iarap.utils), which is not
under src/. -/
noncomputable def rotX (a : ℝ) : Matrix (Fin 3) (Fin 3) ℝ :=
  Matrix.of
    ![![1, 0, 0],
      ![0, Real.cos a, -Real.sin a],
      ![0, Real.sin a, Real.cos a]]

/-- Modelled from the spec: rotation about the y axis by the second Euler
angle, one factor of the euler_to_rotation helper (iarap.utils), which is not
under src/. -/
noncomputable def rotY (a : ℝ) : Matrix (Fin 3) (Fin 3) ℝ :=
  Matrix.of
    ![![Real.cos a, 0, Real.sin a],
      ![0, 1, 0],
      ![-Real.sin a, 0, Real.cos a]]

/-- Modelled from the spec: rotation about the z axis by the third Euler
angle, one factor of the euler_to_rotation helper (iarap.utils), which is not
under src/. -/
noncomputable def rotZ (a : ℝ) : Matrix (Fin 3) (Fin 3) ℝ :=
  Matrix.of
    ![![Real.cos a, -Real.sin a, 0],
      ![Real.sin a, Real.cos a, 0],
      ![0, 0, 1]]

/-- Modelled from the spec: euler_to_rotation (iarap.utils, not under src/),
the rotation matrix produced by NeuralRTF.forward from the three predicted
Euler angles, composed from the three axis rotations. -/
noncomputable def euler_to_rotation (a b c : ℝ) : Matrix (Fin 3) (Fin 3) ℝ :=
  rotZ c * rotY b * rotX a

end NeuralRTF

/-
Zero-level-set sampler.  The method sample_zero_level_set belongs to
NeuralSDF (iarap.model.neural_sdf), which is not under src/; it is called
from src/iarap/train/deform_trainer.py line 95.  The definitions below are
modelled from the specification of the sampler (spec section 4.2).
-/

namespace NeuralSDF

/-- Failure surfaced when rejection sampling cannot collect the requested
number of near-surface points within the attempt budget. -/
inductive SampleFailure where
  | insufficientSamples : SampleFailure
deriving DecidableEq, Repr

/-- Modelled from the spec: the rejection-sampling loop of
sample_zero_level_set (NeuralSDF, not under src/).  Candidate points arrive
in batches of attempts_per_step (the list-of-batches parameter stands for
the uniform draws from the domain box), candidates with absolute SDF value
below the threshold are kept and projected to the exact zero level (the
iterative projection of spec 4.1 enters as the function parameter
`project`); the loop stops as soon as the requested count is collected and
returns exactly that many points, and an exhausted budget is surfaced as an
insufficient-samples failure instead of returning fewer points. -/
def sample_zero_level_set (f : Vec3 ℚ → ℚ) (threshold : ℚ)
    (project : Vec3 ℚ → Vec3 ℚ) (n : ℕ) :
    List (Vec3 ℚ) → List (List (Vec3 ℚ)) →
      Except SampleFailure (List (Vec3 ℚ))
  | acc, [] =>
      if n ≤ acc.length then Except.ok (acc.take n)
      else Except.error SampleFailure.insufficientSamples
  | acc, batch :: rest =>
      let acc2 := acc ++ (batch.filter (fun p => |f p| < threshold)).map project
      if n ≤ acc2.length then Except.ok (acc2.take n)
      else sample_zero_level_set f threshold project n acc2 rest

/-- Number of candidates of the given batches that the sampler can ever
accept: those whose absolute SDF value is below the threshold, plus points
already collected. -/
def acceptableCount (f : Vec3 ℚ → ℚ) (threshold : ℚ)
    (acc : List (Vec3 ℚ)) (batches : List (List (Vec3 ℚ))) : ℕ :=
  acc.length + (batches.map (fun b =>
    (b.filter (fun p => |f p| < threshold)).length)).sum

end NeuralSDF

/-
Patch building of DeformTrainer.train_step
(src/iarap/train/deform_trainer.py lines 104-118).  The batched tensors
samples (n, 3), tangent_planes (n, 3, 3) and plane_coords (m, 3) are embedded
as index functions; `sdf_outs['dist']` is the SDF evaluated at the samples.
The method project_level_sets belongs to NeuralSDF, which is not under src/,
and is modelled from the spec (section 4.1): one call performs one update
round p := p - (f(p) - target) * normalize(grad f p) with the per-sample
target level broadcast over that sample's patch vertices, and the trainer
loop at lines 117-118 supplies the num_projections rounds (section 4.4).
-/

namespace DeformPatches

/-- Embedding of lines 114-115: tangent_coords = tangent_planes @
plane_coords, batched over samples (index i) and template points (index j),
and tangent_pts = tangent_coords + samples. -/
def tangent_pts (samples : ℕ → Vec3 ℝ) (tangentPlanes : ℕ → Mat3 ℝ)
    (planeCoords : ℕ → Vec3 ℝ) : ℕ → ℕ → Vec3 ℝ :=
  fun i j => (tangentPlanes i).mulVec (planeCoords j) + samples i

/-- Modelled from the spec: project_level_sets (NeuralSDF, not under src/),
one projector round of spec 4.1 applied to every patch vertex, with the
target level of row i taken from the per-sample target tensor. -/
noncomputable def project_level_sets (f : Vec3 ℝ → ℝ) (g : Vec3 ℝ → Vec3 ℝ)
    (targets : ℕ → ℝ) (pts : ℕ → ℕ → Vec3 ℝ) : ℕ → ℕ → Vec3 ℝ :=
  fun i j => SDFRenderer.pointStep f g (targets i) (pts i j)

/-- Embedding of lines 104-118: level_set_verts starts at tangent_pts and is
re-projected for num_projections rounds with per-sample target levels
sample_dist = f(samples) (the SDF value at the originating sample). -/
noncomputable def level_set_verts (f : Vec3 ℝ → ℝ) (g : Vec3 ℝ → Vec3 ℝ)
    (samples : ℕ → Vec3 ℝ) (tangentPlanes : ℕ → Mat3 ℝ)
    (planeCoords : ℕ → Vec3 ℝ) : ℕ → ℕ → ℕ → Vec3 ℝ
  | 0 => tangent_pts samples tangentPlanes planeCoords
  | Nat.succ k =>
      project_level_sets f g (fun i => f (samples i))
        (level_set_verts f g samples tangentPlanes planeCoords k)

end DeformPatches

/-
Training step of DeformTrainer (src/iarap/train/deform_trainer.py).  The
trainer's external collaborators (the frozen NeuralSDF and the NeuralRTF
deformation network, whose method bodies are not under src/) enter as oracle
function parameters; functions of the frozen shape network additionally
receive the list of its parameters to make their reads explicit.  Network
parameters are embedded as values paired with a requires_grad flag; the
trainer state carries the frozen source parameters and the learnable model
parameters, and train_step threads it so the frame behaviour of the step is
a theorem about the returned state.
-/

namespace DeformTrainer

/-- Configuration fields of DeformTrainerConfig used by train_step. -/
structure Config where
  zeroSamples : ℕ
  spaceSamples : ℕ
  numProjections : ℕ
  delaunaySample : ℕ
  planeCoordsScale : ℚ
deriving DecidableEq, Repr

/-- Network parameter: a stored value together with its requires_grad flag. -/
structure Param where
  value : ℚ
  requiresGrad : Bool
deriving DecidableEq, Repr

/-- Modelled from the spec: detach_model (iarap.utils, not under src/), which
detaches every parameter of the given network from gradient tracking,
leaving the stored values unchanged. -/
def detach_model (ps : List Param) : List Param :=
  ps.map (fun p => ⟨p.value, false⟩)

/-- Embedding of DeformTrainer.setup_model lines 75-77 restricted to the
frozen shape network: the pretrained weights are loaded and detach_model is
applied to them. -/
def setup_source (pretrained : List Param) : List Param :=
  detach_model pretrained

/-- Mutable state of the trainer across steps: the frozen shape network's
parameters and the deformation network's learnable parameters. -/
structure State where
  sourceParams : List Param
  modelParams : List Param
deriving DecidableEq, Repr

/-- External collaborators of train_step.  Functions of the frozen shape
network take its parameter list; functions of the deformation network take
the model parameter list.  spaceDraw models one uniform draw of
sample_domain (line 82-84) and surfSampler the value returned by
sample_zero_level_set for a requested count. -/
structure Oracles where
  projectNearest : List Param → Vec3 ℚ → Vec3 ℚ
  surfSampler : List Param → ℕ → List (Vec3 ℚ)
  spaceDraw : ℕ → Vec3 ℚ
  sdf : List Param → Vec3 ℚ → ℚ
  tangentPlane : List Param → Vec3 ℚ → Mat3 ℚ
  projectLevelSet : List Param → Vec3 ℚ → ℚ → Vec3 ℚ
  modelRot : List Param → Vec3 ℚ → Mat3 ℚ
  modelTransl : List Param → Vec3 ℚ → Vec3 ℚ

/-- Modelled from the spec: get_patch_mesh with sphere_random_uniform and
delaunay (iarap.utils.meshing, not under src/), called at line 108: a
deterministic pattern of delaunay_sample points on a disk of radius
plane_coords_scale stored with z = 0, triangulated once.  The spec fixes
that the construction is a deterministic function of the configuration; the
concrete pattern below is a simple deterministic stand-in (no claim depends
on the pattern's geometry) and the triangulation a fan over it. -/
def get_patch_mesh (n : ℕ) (scale : ℚ) :
    List (Vec3 ℚ) × List (ℕ × ℕ × ℕ) :=
  ((List.range n).map
      (fun k => (⟨scale * (k : ℚ), scale * ((k : ℚ) * (k : ℚ)), 0⟩ : Vec3 ℚ)),
    (List.range (n - 2)).map (fun k => (0, k + 1, k + 2)))

/-- Embedding of line 88: handles = cat(moving positions, static positions). -/
def handles (mov stat : List (Vec3 ℚ)) : List (Vec3 ℚ) :=
  mov ++ stat

/-- Embedding of lines 89-90: the handle batch is projected to the surface by
num_projections successive calls of source.project_nearest. -/
def projected_handles (o : Oracles) (sp : List Param) (k : ℕ)
    (mov stat : List (Vec3 ℚ)) : List (Vec3 ℚ) :=
  (fun hs : List (Vec3 ℚ) => hs.map (o.projectNearest sp))^[k]
    (handles mov stat)

/-- Embedding of lines 95-99: surf_sample =
source.sample_zero_level_set(zero_samples - handles.shape[0], ...). -/
def surf_sample (cfg : Config) (o : Oracles) (sp : List Param)
    (mov stat : List (Vec3 ℚ)) : List (Vec3 ℚ) :=
  o.surfSampler sp
    (cfg.zeroSamples - (projected_handles o sp cfg.numProjections mov stat).length)

/-- Embedding of lines 82-84 and 101: space_sample =
sample_domain(space_samples), one uniform draw per row. -/
def sample_domain (cfg : Config) (o : Oracles) : List (Vec3 ℚ) :=
  (List.range cfg.spaceSamples).map o.spaceDraw

/-- Embedding of lines 100-102: samples = cat(cat(projected handles,
surf_sample), space_sample). -/
def samples (cfg : Config) (o : Oracles) (sp : List Param)
    (mov stat : List (Vec3 ℚ)) : List (Vec3 ℚ) :=
  (projected_handles o sp cfg.numProjections mov stat ++
      surf_sample cfg o sp mov stat) ++
    sample_domain cfg o

/-- Embedding of lines 104-118 for one sample: the template points are lifted
by the sample's tangent frame, translated to the sample, and re-projected
num_projections times onto the level set at the SDF value of the sample. -/
def patch_verts (cfg : Config) (o : Oracles) (sp : List Param)
    (smp : Vec3 ℚ) : List (Vec3 ℚ) :=
  ((get_patch_mesh cfg.delaunaySample cfg.planeCoordsScale).1).map
    (fun t =>
      (fun v => o.projectLevelSet sp v (o.sdf sp smp))^[cfg.numProjections]
        ((o.tangentPlane sp smp).mulVec t + smp))

/-- Embedding of level_set_verts (lines 114-118) for the whole batch: one
patch per sample row. -/
def level_set_verts_list (cfg : Config) (o : Oracles) (sp : List Param)
    (mov stat : List (Vec3 ℚ)) : List (List (Vec3 ℚ)) :=
  (samples cfg o sp mov stat).map (patch_verts cfg o sp)

/-- Embedding of lines 133-134: per-vertex rotations predicted by the
deformation network on every patch vertex. -/
def rotations (cfg : Config) (o : Oracles) (sp mp : List Param)
    (mov stat : List (Vec3 ℚ)) : List (List (Mat3 ℚ)) :=
  (level_set_verts_list cfg o sp mov stat).map
    (fun patch => patch.map (o.modelRot mp))

/-- Embedding of lines 133-135: per-vertex translations predicted by the
deformation network on every patch vertex. -/
def translations (cfg : Config) (o : Oracles) (sp mp : List Param)
    (mov stat : List (Vec3 ℚ)) : List (List (Vec3 ℚ)) :=
  (level_set_verts_list cfg o sp mov stat).map
    (fun patch => patch.map (o.modelTransl mp))

/-- Embedding of lines 138-141: handle_idx = stack(arange(handle count),
zeros), pairing each handle row with patch vertex 0. -/
def handle_idx (o : Oracles) (sp : List Param) (k : ℕ)
    (mov stat : List (Vec3 ℚ)) : List (ℕ × ℕ) :=
  (List.range (projected_handles o sp k mov stat).length).map (fun i => (i, 0))

/-- Embedding of line 142: moving_idx = handle_idx[:moving count]. -/
def moving_idx (o : Oracles) (sp : List Param) (k : ℕ)
    (mov stat : List (Vec3 ℚ)) : List (ℕ × ℕ) :=
  (handle_idx o sp k mov stat).take mov.length

/-- Embedding of line 143: static_idx = handle_idx[moving count:]. -/
def static_idx (o : Oracles) (sp : List Param) (k : ℕ)
    (mov stat : List (Vec3 ℚ)) : List (ℕ × ℕ) :=
  (handle_idx o sp k mov stat).drop mov.length

/-- Rotation tensor entry selected by an index pair (row, vertex), as the
loss reads rotations[moving_idx] and rotations[static_idx]. -/
def vertex_rotation (cfg : Config) (o : Oracles) (sp mp : List Param)
    (mov stat : List (Vec3 ℚ)) (pr : ℕ × ℕ) : Mat3 ℚ :=
  ((rotations cfg o sp mp mov stat).getD pr.1 []).getD pr.2 Mat3.id

/-- Translation tensor entry selected by an index pair (row, vertex). -/
def vertex_translation (cfg : Config) (o : Oracles) (sp mp : List Param)
    (mov stat : List (Vec3 ℚ)) (pr : ℕ × ℕ) : Vec3 ℚ :=
  ((translations cfg o sp mp mov stat).getD pr.1 []).getD pr.2 0

/-- Patch vertex selected by an index pair (row, vertex). -/
def vertex_position (cfg : Config) (o : Oracles) (sp : List Param)
    (mov stat : List (Vec3 ℚ)) (pr : ℕ × ℕ) : Vec3 ℚ :=
  ((level_set_verts_list cfg o sp mov stat).getD pr.1 []).getD pr.2 0

/-- Handle term of the loss call at lines 144-146, with per-handle
contributions modelled from spec 4.5 (PatchARAPLoss is not under src/):
moving handles are compared against their prescribed target transforms,
static handles against the identity. -/
def handle_term (cfg : Config) (o : Oracles) (sp mp : List Param)
    (mov stat : List (Vec3 ℚ)) (movTargets : List (Mat3 ℚ × Vec3 ℚ)) : ℚ :=
  (((moving_idx o sp cfg.numProjections mov stat).zip movTargets).map
      (fun pr =>
        PatchARAPLoss.movingHandleContribution
          (vertex_rotation cfg o sp mp mov stat pr.1)
          (vertex_translation cfg o sp mp mov stat pr.1)
          pr.2.1 pr.2.2
          (vertex_position cfg o sp mov stat pr.1))).sum +
    ((static_idx o sp cfg.numProjections mov stat).map
      (fun pr =>
        PatchARAPLoss.staticHandleContribution
          (vertex_rotation cfg o sp mp mov stat pr)
          (vertex_translation cfg o sp mp mov stat pr)
          (vertex_position cfg o sp mov stat pr))).sum

/-- Patch data handed to the rigidity term for one patch of the batch. -/
def patch_data (o : Oracles) (mp : List Param) (patch : List (Vec3 ℚ)) :
    PatchARAPLoss.PatchData ℚ :=
  ⟨fun k => patch.getD k 0,
    fun k => (patch.map (o.modelRot mp)).getD k Mat3.id,
    fun k => (patch.map (o.modelTransl mp)).getD k 0⟩

/-- Loss value of the loss call at lines 144-146: rigidity term over all
patches with the one triangulation of the step's template, plus the handle
term. -/
def loss_value (cfg : Config) (o : Oracles) (sp mp : List Param)
    (mov stat : List (Vec3 ℚ)) (movTargets : List (Mat3 ℚ × Vec3 ℚ)) : ℚ :=
  PatchARAPLoss.rigidityTerm
      ((level_set_verts_list cfg o sp mov stat).map (patch_data o mp))
      (get_patch_mesh cfg.delaunaySample cfg.planeCoordsScale).2 +
    handle_term cfg o sp mp mov stat movTargets

/-- Observable outputs of one train_step call: the loss, the template
computed at line 108, the triangulation value handed to the loss at line
145, and the trainer state after the step. -/
structure StepOut where
  loss : ℚ
  usedTemplate : List (Vec3 ℚ) × List (ℕ × ℕ × ℕ)
  lossTriangles : List (ℕ × ℕ × ℕ)
  state : State
deriving DecidableEq, Repr

/-- Embedding of DeformTrainer.train_step (lines 86-148): computes the loss
from the sampled batch and returns; no assignment in the body touches any
network parameter, so the state comes back as it went in. -/
def train_step (cfg : Config) (o : Oracles) (mov stat : List (Vec3 ℚ))
    (movTargets : List (Mat3 ℚ × Vec3 ℚ)) (s : State) : StepOut :=
  ⟨loss_value cfg o s.sourceParams s.modelParams mov stat movTargets,
    get_patch_mesh cfg.delaunaySample cfg.planeCoordsScale,
    (get_patch_mesh cfg.delaunaySample cfg.planeCoordsScale).2,
    s⟩

/-- Optimizer update applied between steps by the external trainer loop: it
is constructed over the deformation model's parameters only. -/
def optimizer_step (upd : List Param → List Param) (s : State) : State :=
  ⟨s.sourceParams, upd s.modelParams⟩

/-- Training run: the external loop alternates train_step with the optimizer
update for the configured number of steps. -/
def run (cfg : Config) (o : Oracles) (mov stat : List (Vec3 ℚ))
    (movTargets : List (Mat3 ℚ × Vec3 ℚ)) (upd : List Param → List Param) :
    ℕ → State → State
  | 0, s => s
  | Nat.succ k, s =>
      run cfg o mov stat movTargets upd k
        (optimizer_step upd (train_step cfg o mov stat movTargets s).state)

end DeformTrainer

/-- Concrete oracle set used to witness the handle-index layout at a small
input: identity projection, a sampler returning the requested count of zero
points, and constant network outputs. -/
def witnessOracles : DeformTrainer.Oracles :=
  ⟨fun _ p => p, fun _ n => List.replicate n 0, fun _ => 0, fun _ _ => 0,
    fun _ _ => Mat3.id, fun _ v _ => v, fun _ _ => Mat3.id, fun _ _ => 0⟩

/-- Concrete configuration used to witness the handle-index layout:
zero_samples 2, space_samples 1, num_projections 1, delaunay_sample 3,
plane_coords_scale 1. -/
def witnessConfig : DeformTrainer.Config := ⟨2, 1, 1, 3, 1⟩

/-- Concrete trainer state used to witness the handle-index layout. -/
def witnessState : DeformTrainer.State := ⟨[], []⟩

/-- Concrete moving-handle positions used to witness the layout. -/
def witnessMov : List (Vec3 ℚ) := [⟨1, 0, 0⟩]

/-- Concrete static-handle positions used to witness the layout. -/
def witnessStat : List (Vec3 ℚ) := [⟨0, 1, 0⟩]

namespace Vec3

variable {α : Type} [CommRing α]

theorem add_def (a b : Vec3 α) : a + b = ⟨a.x + b.x, a.y + b.y, a.z + b.z⟩ := rfl

theorem sub_def (a b : Vec3 α) : a - b = ⟨a.x - b.x, a.y - b.y, a.z - b.z⟩ := rfl

theorem smul_def (c : α) (a : Vec3 α) : c • a = ⟨c * a.x, c * a.y, c * a.z⟩ := rfl

theorem zero_def : (0 : Vec3 α) = ⟨0, 0, 0⟩ := rfl

theorem normSq_zero : (0 : Vec3 α).normSq = 0 := by
  simp [normSq, dot, zero_def]

theorem smul_zero_vec (c : α) : c • (0 : Vec3 α) = 0 := by
  simp [smul_def, zero_def]

theorem sub_self_eq_zero (a : Vec3 α) : a - a = 0 := by
  simp [sub_def, zero_def]

end Vec3

namespace Mat3

variable {α : Type} [CommRing α]

theorem mulVec_sub (m : Mat3 α) (a b : Vec3 α) :
    m.mulVec (a - b) = m.mulVec a - m.mulVec b := by
  cases a; cases b; cases m
  simp only [mulVec, Vec3.sub_def, Vec3.dot, Vec3.mk.injEq]
  refine ⟨?_, ?_, ?_⟩ <;> ring

theorem id_mulVec (v : Vec3 α) : (Mat3.id).mulVec v = v := by
  cases v
  simp [mulVec, Mat3.id, Vec3.dot]

end Mat3

namespace PatchARAPLoss

variable {α : Type} [CommRing α]

/-- Rigidity error under either endpoint's rotation vanishes when every
vertex carries one shared rotation and translation. -/
theorem edgeErrUnder_uniform (R : Mat3 α) (t : Vec3 α)
    (vs : ℕ → Vec3 α) (i j k : ℕ) :
    edgeErrUnder ⟨vs, fun _ => R, fun _ => t⟩ i j k = 0 := by
  have hsub : deformedVertex R t (vs i) - deformedVertex R t (vs j) =
      R.mulVec (vs i) - R.mulVec (vs j) := by
    simp only [deformedVertex]
    cases R.mulVec (vs i); cases R.mulVec (vs j); cases t
    simp only [Vec3.add_def, Vec3.sub_def, Vec3.mk.injEq]
    refine ⟨?_, ?_, ?_⟩ <;> ring
  simp only [edgeErrUnder, hsub, Mat3.mulVec_sub]
  rw [Vec3.sub_self_eq_zero, Vec3.normSq_zero]

end PatchARAPLoss

namespace DeformPatches

theorem vec3_add_comm (a b : Vec3 ℝ) : a + b = b + a := by
  cases a; cases b
  simp only [Vec3.add_def, Vec3.mk.injEq]
  refine ⟨?_, ?_, ?_⟩ <;> ring

end DeformPatches

namespace NeuralRTF

theorem rotX_mul_transpose (a : ℝ) : rotX a * (rotX a).transpose = 1 := by
  ext i j
  fin_cases i <;> fin_cases j <;>
    simp [rotX, Matrix.mul_apply, Fin.sum_univ_three, Matrix.one_apply,
      Matrix.transpose_apply, Matrix.vecHead, Matrix.vecTail] <;>
    nlinarith [Real.sin_sq_add_cos_sq a]

theorem rotY_mul_transpose (a : ℝ) : rotY a * (rotY a).transpose = 1 := by
  ext i j
  fin_cases i <;> fin_cases j <;>
    simp [rotY, Matrix.mul_apply, Fin.sum_univ_three, Matrix.one_apply,
      Matrix.transpose_apply, Matrix.vecHead, Matrix.vecTail] <;>
    nlinarith [Real.sin_sq_add_cos_sq a]

theorem rotZ_mul_transpose (a : ℝ) : rotZ a * (rotZ a).transpose = 1 := by
  ext i j
  fin_cases i <;> fin_cases j <;>
    simp [rotZ, Matrix.mul_apply, Fin.sum_univ_three, Matrix.one_apply,
      Matrix.transpose_apply, Matrix.vecHead, Matrix.vecTail] <;>
    nlinarith [Real.sin_sq_add_cos_sq a]

theorem rotX_det (a : ℝ) : (rotX a).det = 1 := by
  simp [rotX, Matrix.det_fin_three]
  nlinarith [Real.sin_sq_add_cos_sq a]

theorem rotY_det (a : ℝ) : (rotY a).det = 1 := by
  simp [rotY, Matrix.det_fin_three]
  nlinarith [Real.sin_sq_add_cos_sq a]

theorem rotZ_det (a : ℝ) : (rotZ a).det = 1 := by
  simp [rotZ, Matrix.det_fin_three]
  nlinarith [Real.sin_sq_add_cos_sq a]

end NeuralRTF

/-- Claim C2: the level-set projector performs exactly the configured fixed
number of iterations of the update
p := p - (f(p) - target_level) * normalize(grad f (p)), with no convergence
check, independently on each input point, and returns the resulting points
with no other modification: the returned batch is exactly the n_its-fold
iterate of the single-point update mapped over the input batch. -/
theorem project_nearest_fixed_iterations
    (f : Vec3 ℝ → ℝ) (g : Vec3 ℝ → Vec3 ℝ) (level : ℝ)
    (nIts : ℕ) (query : List (Vec3 ℝ)) :
    SDFRenderer.project_nearest f g level nIts query =
      query.map (fun p => (SDFRenderer.pointStep f g level)^[nIts] p) := by
  induction nIts generalizing query with
  | zero => simp [SDFRenderer.project_nearest]
  | succ n ih =>
      rw [SDFRenderer.project_nearest, ih, List.map_map]
      refine congrArg (fun h => List.map h query) ?_
      funext p
      rw [Function.comp_apply, Function.iterate_succ_apply]
      rfl

/-- Claim C7: during projection, a point whose SDF gradient is zero is left
unmoved by the iteration (the torch normalization maps the zero vector to
zero instead of dividing by zero), and the denominator used by the
normalization is strictly positive for every gradient value, so the update
never divides by zero. -/
theorem projection_zero_gradient_failsoft
    (f : Vec3 ℝ → ℝ) (g : Vec3 ℝ → Vec3 ℝ) (level : ℝ) (p : Vec3 ℝ) :
    (g p = 0 → SDFRenderer.pointStep f g level p = p) ∧
      0 < max (SDFRenderer.norm2 (g p)) SDFRenderer.normEps := by
  constructor
  · intro hg
    simp only [SDFRenderer.pointStep, SDFRenderer.normalizeEps, hg,
      Vec3.smul_zero_vec]
    cases p
    simp [Vec3.sub_def, Vec3.zero_def]
  · have hx : (0 : ℝ) < SDFRenderer.normEps := by norm_num [SDFRenderer.normEps]
    exact lt_of_lt_of_le hx (le_max_right _ _)

/-- Witness for C7 at a concrete input: the constant-one SDF with identically
zero gradient leaves the point (1, 2, 3) unmoved, and the normalization
denominator there is positive. -/
theorem projection_zero_gradient_failsoft_witness :
    SDFRenderer.pointStep (fun _ => (1 : ℝ)) (fun _ => (0 : Vec3 ℝ)) 0
        (⟨1, 2, 3⟩ : Vec3 ℝ) = (⟨1, 2, 3⟩ : Vec3 ℝ) ∧
      0 < max (SDFRenderer.norm2 (0 : Vec3 ℝ)) SDFRenderer.normEps :=
  ⟨(projection_zero_gradient_failsoft (fun _ => (1 : ℝ))
      (fun _ => (0 : Vec3 ℝ)) 0 (⟨1, 2, 3⟩ : Vec3 ℝ)).1 rfl,
    (projection_zero_gradient_failsoft (fun _ => (1 : ℝ))
      (fun _ => (0 : Vec3 ℝ)) 0 (⟨1, 2, 3⟩ : Vec3 ℝ)).2⟩

/-- Claim C1: for every patch geometry, if every vertex of a patch receives
one shared rotation R and translation t, the rigidity term of the loss is
zero; and the contribution of every edge (i, j) of the triangulation is the
rigidity error accumulated twice, once comparing the deformed edge vector
against the original edge rotated by vertex i's rotation and once against it
rotated by vertex j's rotation. -/
theorem rigidity_loss_zero_on_global_motion
    (R : Mat3 ℚ) (t : Vec3 ℚ) (geoms : List (ℕ → Vec3 ℚ))
    (tris : List (ℕ × ℕ × ℕ)) :
    PatchARAPLoss.rigidityTerm
        (geoms.map (fun vs => ⟨vs, fun _ => R, fun _ => t⟩)) tris = 0 ∧
      ∀ (p : PatchARAPLoss.PatchData ℚ) (e : ℕ × ℕ),
        PatchARAPLoss.edgeContribution p e =
          PatchARAPLoss.edgeErrUnder p e.1 e.2 e.1 +
            PatchARAPLoss.edgeErrUnder p e.1 e.2 e.2 := by
  constructor
  · apply List.sum_eq_zero
    intro x hx
    rw [List.mem_map] at hx
    obtain ⟨q, hq, rfl⟩ := hx
    rw [List.mem_map] at hq
    obtain ⟨vs, _, rfl⟩ := hq
    apply List.sum_eq_zero
    intro y hy
    rw [List.mem_map] at hy
    obtain ⟨e, _, rfl⟩ := hy
    simp [PatchARAPLoss.edgeContribution, PatchARAPLoss.edgeErrUnder_uniform]
  · intro p e
    rfl

/-- Claim C4: a static handle predicted as the identity transform (identity
rotation, zero translation) contributes exactly zero to the handle loss, and
a moving handle whose predicted transform equals its prescribed target
transform contributes exactly zero. -/
theorem handle_loss_exact_zero
    (R : Mat3 ℚ) (t : Vec3 ℚ) (p : Vec3 ℚ) :
    PatchARAPLoss.staticHandleContribution Mat3.id 0 p = 0 ∧
      PatchARAPLoss.movingHandleContribution R t R t p = 0 := by
  constructor
  · have hdv : PatchARAPLoss.deformedVertex (Mat3.id) (0 : Vec3 ℚ) p = p := by
      simp only [PatchARAPLoss.deformedVertex, Mat3.id_mulVec]
      cases p
      simp [Vec3.add_def, Vec3.zero_def]
    rw [PatchARAPLoss.staticHandleContribution, hdv,
      Vec3.sub_self_eq_zero, Vec3.normSq_zero]
  · rw [PatchARAPLoss.movingHandleContribution,
      Vec3.sub_self_eq_zero, Vec3.normSq_zero]

/-- Claim C3: for every Euler-angle input, including the boundary angles 0,
pi and -pi, the rotation matrix produced by the forward pass of the
deformation network is a proper rotation: R times R transposed is the identity
and det R equals 1 (exactly, over the reals that model the float
computation). -/
theorem euler_rotation_is_proper (a b c : ℝ) :
    NeuralRTF.euler_to_rotation a b c *
        (NeuralRTF.euler_to_rotation a b c).transpose = 1 ∧
      (NeuralRTF.euler_to_rotation a b c).det = 1 := by
  have cancel : ∀ M P : Matrix (Fin 3) (Fin 3) ℝ, M * M.transpose = 1 → M * (M.transpose * P) = P := by
    intro M P h
    rw [← Matrix.mul_assoc, h, Matrix.one_mul]
  constructor
  · rw [NeuralRTF.euler_to_rotation, Matrix.transpose_mul, Matrix.transpose_mul]
    simp only [Matrix.mul_assoc]
    rw [cancel _ _ (NeuralRTF.rotX_mul_transpose a),
      cancel _ _ (NeuralRTF.rotY_mul_transpose b),
      NeuralRTF.rotZ_mul_transpose c]
  · rw [NeuralRTF.euler_to_rotation, Matrix.det_mul, Matrix.det_mul,
      NeuralRTF.rotX_det, NeuralRTF.rotY_det, NeuralRTF.rotZ_det]
    norm_num

/-- Claim C5: when the attempt budget holds at least the requested number of
acceptable near-surface candidates, the sampler succeeds and returns exactly
that many points; every successful answer carries exactly the requested
count; and when the budget does not contain enough near-surface candidates
the sampler surfaces the distinct insufficient-samples failure instead of
silently returning fewer points, so callers can distinguish the two
outcomes. -/
theorem sampler_exact_count_or_failure (f : Vec3 ℚ → ℚ) (threshold : ℚ)
    (project : Vec3 ℚ → Vec3 ℚ) (n : ℕ) (acc : List (Vec3 ℚ))
    (batches : List (List (Vec3 ℚ))) :
    (∀ pts, NeuralSDF.sample_zero_level_set f threshold project n acc batches =
        Except.ok pts → pts.length = n) ∧
      (NeuralSDF.acceptableCount f threshold acc batches < n →
        NeuralSDF.sample_zero_level_set f threshold project n acc batches =
          Except.error NeuralSDF.SampleFailure.insufficientSamples) ∧
      (n ≤ NeuralSDF.acceptableCount f threshold acc batches →
        ∃ pts,
          NeuralSDF.sample_zero_level_set f threshold project n acc batches =
              Except.ok pts ∧
            pts.length = n) := by
  induction batches generalizing acc with
  | nil =>
      refine ⟨?_, ?_, ?_⟩
      · intro pts hok
        rw [NeuralSDF.sample_zero_level_set] at hok
        by_cases hle : n ≤ acc.length
        · rw [if_pos hle] at hok
          cases hok
          rw [List.length_take]
          exact Nat.min_eq_left hle
        · rw [if_neg hle] at hok
          cases hok
      · intro hlt
        rw [NeuralSDF.sample_zero_level_set]
        rw [NeuralSDF.acceptableCount] at hlt
        simp only [List.map_nil, List.sum_nil, Nat.add_zero] at hlt
        rw [if_neg (Nat.not_le.mpr hlt)]
      · intro hge
        rw [NeuralSDF.acceptableCount] at hge
        simp only [List.map_nil, List.sum_nil, Nat.add_zero] at hge
        rw [NeuralSDF.sample_zero_level_set, if_pos hge]
        exact ⟨acc.take n, rfl, by
          rw [List.length_take]
          exact Nat.min_eq_left hge⟩
  | cons b rest ih =>
      refine ⟨?_, ?_, ?_⟩
      · intro pts hok
        rw [NeuralSDF.sample_zero_level_set] at hok
        by_cases hle : n ≤ (acc ++ (b.filter (fun p => |f p| < threshold)).map project).length
        · rw [if_pos hle] at hok
          cases hok
          rw [List.length_take]
          exact Nat.min_eq_left hle
        · rw [if_neg hle] at hok
          exact (ih _).1 pts hok
      · intro hlt
        rw [NeuralSDF.sample_zero_level_set]
        have hlen : (acc ++ (b.filter (fun p => |f p| < threshold)).map project).length +
            (rest.map (fun c =>
              (c.filter (fun p => |f p| < threshold)).length)).sum <
            n := by
          rw [NeuralSDF.acceptableCount] at hlt
          simp only [List.map_cons, List.sum_cons, List.length_append,
            List.length_map] at hlt ⊢
          omega
        have hle : ¬ n ≤ (acc ++ (b.filter (fun p => |f p| < threshold)).map project).length := by
          omega
        rw [if_neg hle]
        refine (ih _).2.1 ?_
        rw [NeuralSDF.acceptableCount]
        omega
      · intro hge
        rw [NeuralSDF.sample_zero_level_set]
        by_cases hle : n ≤ (acc ++ (b.filter (fun p => |f p| < threshold)).map project).length
        · rw [if_pos hle]
          exact ⟨_, rfl, by
            rw [List.length_take]
            exact Nat.min_eq_left hle⟩
        · rw [if_neg hle]
          refine (ih _).2.2 ?_
          rw [NeuralSDF.acceptableCount] at hge ⊢
          simp only [List.map_cons, List.sum_cons, List.length_append,
            List.length_map] at hge ⊢
          omega

/-- Witness for C5 at concrete inputs: with threshold 1 and the SDF reading
the x coordinate, a batch holding one acceptable candidate lets the sampler
return exactly the one requested point (both conditioned on success and
produced outright from the sufficient budget), and requesting two points
from the same budget surfaces the insufficient-samples failure. -/
theorem sampler_exact_count_or_failure_witness :
    ([(⟨0, 0, 0⟩ : Vec3 ℚ)]).length = 1 ∧
      NeuralSDF.sample_zero_level_set (fun p => p.x) 1 (fun p => p) 2 []
          [[(⟨0, 0, 0⟩ : Vec3 ℚ), (⟨7, 0, 0⟩ : Vec3 ℚ)]] =
        Except.error NeuralSDF.SampleFailure.insufficientSamples ∧
      ∃ pts,
        NeuralSDF.sample_zero_level_set (fun p => p.x) 1 (fun p => p) 1 []
            [[(⟨0, 0, 0⟩ : Vec3 ℚ), (⟨7, 0, 0⟩ : Vec3 ℚ)]] =
            Except.ok pts ∧
          pts.length = 1 :=
  ⟨(sampler_exact_count_or_failure (fun p => p.x) 1 (fun p => p) 1 []
      [[(⟨0, 0, 0⟩ : Vec3 ℚ), (⟨7, 0, 0⟩ : Vec3 ℚ)]]).1
      [(⟨0, 0, 0⟩ : Vec3 ℚ)] (by rfl),
    (sampler_exact_count_or_failure (fun p => p.x) 1 (fun p => p) 2 []
      [[(⟨0, 0, 0⟩ : Vec3 ℚ), (⟨7, 0, 0⟩ : Vec3 ℚ)]]).2.1 (by decide),
    (sampler_exact_count_or_failure (fun p => p.x) 1 (fun p => p) 1 []
      [[(⟨0, 0, 0⟩ : Vec3 ℚ), (⟨7, 0, 0⟩ : Vec3 ℚ)]]).2.2 (by decide)⟩

/-- Claim C6: for every surface sample i of a training step, the patch
vertices are sample_origin + tangent_frame @ template_points, computed
independently per sample, and then re-projected for num_projections
iterative rounds onto the level set whose target offset is the SDF value at
that originating sample (not necessarily zero): vertex (i, j) after the loop
is the num_projections-fold iterate of the projector update with target
f(samples i), started from samples i + tangent_frame i @ template j. -/
theorem patch_vertices_lift_and_reproject
    (f : Vec3 ℝ → ℝ) (g : Vec3 ℝ → Vec3 ℝ)
    (samples : ℕ → Vec3 ℝ) (tangentPlanes : ℕ → Mat3 ℝ)
    (planeCoords : ℕ → Vec3 ℝ) (numProjections i j : ℕ) :
    DeformPatches.level_set_verts f g samples tangentPlanes planeCoords
        numProjections i j =
      (SDFRenderer.pointStep f g (f (samples i)))^[numProjections]
        (samples i + (tangentPlanes i).mulVec (planeCoords j)) := by
  induction numProjections with
  | zero =>
      simp only [DeformPatches.level_set_verts, DeformPatches.tangent_pts,
        Function.iterate_zero, id_eq]
      exact DeformPatches.vec3_add_comm _ _
  | succ k ih =>
      rw [DeformPatches.level_set_verts, DeformPatches.project_level_sets,
        ih, Function.iterate_succ_apply']

namespace DeformTrainer

theorem iterate_map_eq (f : Vec3 ℚ → Vec3 ℚ) (k : ℕ) (l : List (Vec3 ℚ)) :
    (fun hs : List (Vec3 ℚ) => hs.map f)^[k] l = l.map f^[k] := by
  induction k generalizing l with
  | zero => simp
  | succ n ih =>
      rw [Function.iterate_succ_apply, ih, List.map_map]
      refine congrArg (fun h => List.map h l) ?_
      funext p
      rw [Function.comp_apply, ← Function.iterate_succ_apply]

theorem projected_handles_eq (o : Oracles) (sp : List Param) (k : ℕ)
    (mov stat : List (Vec3 ℚ)) :
    projected_handles o sp k mov stat =
      mov.map ((o.projectNearest sp)^[k]) ++
        stat.map ((o.projectNearest sp)^[k]) := by
  rw [projected_handles, handles, iterate_map_eq, List.map_append]

theorem projected_handles_length (o : Oracles) (sp : List Param) (k : ℕ)
    (mov stat : List (Vec3 ℚ)) :
    (projected_handles o sp k mov stat).length =
      mov.length + stat.length := by
  rw [projected_handles_eq]
  simp

end DeformTrainer

/-- Claim C8: the patch template is one value per training step, identical
for every patch of the step, and deterministic given the configuration: the
template of train_step does not depend on the oracles, the handles or the
trainer state (so two runs or steps with one configuration agree on it); the
triangulation handed to the loss is exactly the second component of that one
template; and every patch of the step has exactly the template's vertex
count (the one triangulation indexes every patch the same way, only vertex
positions differ). -/
theorem patch_template_shared_and_deterministic
    (cfg : DeformTrainer.Config) (o1 o2 : DeformTrainer.Oracles)
    (mov1 stat1 mov2 stat2 : List (Vec3 ℚ))
    (mt1 mt2 : List (Mat3 ℚ × Vec3 ℚ)) (s1 s2 : DeformTrainer.State) :
    (DeformTrainer.train_step cfg o1 mov1 stat1 mt1 s1).usedTemplate =
        (DeformTrainer.train_step cfg o2 mov2 stat2 mt2 s2).usedTemplate ∧
      (DeformTrainer.train_step cfg o1 mov1 stat1 mt1 s1).lossTriangles =
        (DeformTrainer.train_step cfg o1 mov1 stat1 mt1 s1).usedTemplate.2 ∧
      (DeformTrainer.level_set_verts_list cfg o1 s1.sourceParams mov1 stat1).map
          List.length =
        List.replicate
          (DeformTrainer.samples cfg o1 s1.sourceParams mov1 stat1).length
          ((DeformTrainer.train_step cfg o1 mov1 stat1 mt1 s1).usedTemplate.1).length := by
  refine ⟨rfl, rfl, ?_⟩
  rw [DeformTrainer.level_set_verts_list, List.map_map]
  refine List.map_eq_replicate_iff.mpr ?_
  intro x _
  simp [Function.comp_def, DeformTrainer.patch_verts, DeformTrainer.train_step]

/-- Claim C9: the frozen shape network's parameters are read-only: setup
detaches every parameter from gradient tracking while preserving its value,
one train_step returns the trainer state with the source parameters
untouched, and a whole run of any number of steps interleaved with external
optimizer updates (which apply to the deformation model's parameters only)
leaves the source parameters exactly as set up. -/
theorem frozen_source_params_never_mutated
    (pretrained : List DeformTrainer.Param) (cfg : DeformTrainer.Config)
    (o : DeformTrainer.Oracles) (mov stat : List (Vec3 ℚ))
    (mt : List (Mat3 ℚ × Vec3 ℚ))
    (upd : List DeformTrainer.Param → List DeformTrainer.Param)
    (k : ℕ) (s : DeformTrainer.State) :
    (DeformTrainer.setup_source pretrained).map DeformTrainer.Param.value =
        pretrained.map DeformTrainer.Param.value ∧
      (DeformTrainer.setup_source pretrained).map DeformTrainer.Param.requiresGrad =
        List.replicate pretrained.length false ∧
      (DeformTrainer.train_step cfg o mov stat mt s).state.sourceParams =
        s.sourceParams ∧
      (DeformTrainer.run cfg o mov stat mt upd k s).sourceParams =
        s.sourceParams := by
  refine ⟨?_, ?_, rfl, ?_⟩
  · rw [DeformTrainer.setup_source, DeformTrainer.detach_model, List.map_map]
    rfl
  · rw [DeformTrainer.setup_source, DeformTrainer.detach_model, List.map_map]
    refine List.map_eq_replicate_iff.mpr ?_
    intro p _
    rfl
  · induction k generalizing s with
    | zero => rfl
    | succ n ih =>
        rw [DeformTrainer.run]
        exact ih _

/-- Claim C10: in every train_step call the sample batch begins with the
projected moving-handle points (rows 0..m-1) followed by the projected
static-handle points (rows m..h-1); moving_idx enumerates exactly rows
0..m-1 and static_idx exactly rows m..h-1, each paired with vertex index 0;
the rotations and translations handed to the loss have one row per sample;
and provided the handle count does not exceed zero_samples and the surface
sampler returns the requested count, the batch has zero_samples plus
space_samples rows and every entry of moving_idx and static_idx references a
valid row. -/
theorem train_step_handle_batch_layout
    (cfg : DeformTrainer.Config) (o : DeformTrainer.Oracles)
    (mov stat : List (Vec3 ℚ)) (s : DeformTrainer.State)
    (hsampler : (o.surfSampler s.sourceParams
        (cfg.zeroSamples - (mov ++ stat).length)).length =
      cfg.zeroSamples - (mov ++ stat).length)
    (hcap : (mov ++ stat).length ≤ cfg.zeroSamples) :
    (DeformTrainer.samples cfg o s.sourceParams mov stat).take mov.length =
        mov.map ((o.projectNearest s.sourceParams)^[cfg.numProjections]) ∧
      ((DeformTrainer.samples cfg o s.sourceParams mov stat).drop
          mov.length).take stat.length =
        stat.map ((o.projectNearest s.sourceParams)^[cfg.numProjections]) ∧
      DeformTrainer.moving_idx o s.sourceParams cfg.numProjections mov stat =
        (List.range mov.length).map (fun i => (i, 0)) ∧
      DeformTrainer.static_idx o s.sourceParams cfg.numProjections mov stat =
        (List.range stat.length).map (fun i => (mov.length + i, 0)) ∧
      (DeformTrainer.rotations cfg o s.sourceParams s.modelParams mov stat).length =
        (DeformTrainer.samples cfg o s.sourceParams mov stat).length ∧
      (DeformTrainer.translations cfg o s.sourceParams s.modelParams mov stat).length =
        (DeformTrainer.samples cfg o s.sourceParams mov stat).length ∧
      (DeformTrainer.samples cfg o s.sourceParams mov stat).length =
        cfg.zeroSamples + cfg.spaceSamples ∧
      ∀ pr ∈ DeformTrainer.moving_idx o s.sourceParams cfg.numProjections mov stat ++
          DeformTrainer.static_idx o s.sourceParams cfg.numProjections mov stat,
        pr.1 <
            (DeformTrainer.rotations cfg o s.sourceParams s.modelParams mov stat).length ∧
          pr.2 = 0 := by
  have hproj := DeformTrainer.projected_handles_eq o s.sourceParams
    cfg.numProjections mov stat
  have hcap2 : mov.length + stat.length ≤ cfg.zeroSamples := by
    simpa [List.length_append] using hcap
  have hsurf : (DeformTrainer.surf_sample cfg o s.sourceParams mov stat).length =
      cfg.zeroSamples - (mov.length + stat.length) := by
    rw [DeformTrainer.surf_sample, DeformTrainer.projected_handles_length]
    simpa [List.length_append] using hsampler
  have htake : (DeformTrainer.samples cfg o s.sourceParams mov stat).take mov.length =
      mov.map ((o.projectNearest s.sourceParams)^[cfg.numProjections]) := by
    rw [DeformTrainer.samples, hproj, List.append_assoc, List.append_assoc]
    exact List.take_left' (by simp)
  have hdrop : ((DeformTrainer.samples cfg o s.sourceParams mov stat).drop
        mov.length).take stat.length =
      stat.map ((o.projectNearest s.sourceParams)^[cfg.numProjections]) := by
    rw [DeformTrainer.samples, hproj, List.append_assoc, List.append_assoc,
      List.drop_left' (by simp : (mov.map
        ((o.projectNearest s.sourceParams)^[cfg.numProjections])).length = mov.length)]
    exact List.take_left' (by simp)
  have hmi : DeformTrainer.moving_idx o s.sourceParams cfg.numProjections mov stat =
      (List.range mov.length).map (fun i => (i, 0)) := by
    rw [DeformTrainer.moving_idx, DeformTrainer.handle_idx,
      DeformTrainer.projected_handles_length, List.range_add, List.map_append]
    exact List.take_left' (by simp)
  have hsi : DeformTrainer.static_idx o s.sourceParams cfg.numProjections mov stat =
      (List.range stat.length).map (fun i => (mov.length + i, 0)) := by
    rw [DeformTrainer.static_idx, DeformTrainer.handle_idx,
      DeformTrainer.projected_handles_length, List.range_add, List.map_append,
      List.drop_left' (by simp), List.map_map]
    rfl
  have hrot : (DeformTrainer.rotations cfg o s.sourceParams s.modelParams mov stat).length =
      (DeformTrainer.samples cfg o s.sourceParams mov stat).length := by
    simp [DeformTrainer.rotations, DeformTrainer.level_set_verts_list]
  have htr : (DeformTrainer.translations cfg o s.sourceParams s.modelParams mov stat).length =
      (DeformTrainer.samples cfg o s.sourceParams mov stat).length := by
    simp [DeformTrainer.translations, DeformTrainer.level_set_verts_list]
  have hslen : (DeformTrainer.samples cfg o s.sourceParams mov stat).length =
      cfg.zeroSamples + cfg.spaceSamples := by
    simp only [DeformTrainer.samples, List.length_append,
      DeformTrainer.projected_handles_length, hsurf,
      DeformTrainer.sample_domain, List.length_map, List.length_range]
    omega
  refine ⟨htake, hdrop, hmi, hsi, hrot, htr, hslen, ?_⟩
  intro pr hpr
  rw [hmi, hsi, List.mem_append] at hpr
  rw [hrot, hslen]
  rcases hpr with h | h
  · obtain ⟨i, hi, rfl⟩ := List.mem_map.1 h
    have := List.mem_range.1 hi
    exact ⟨by omega, rfl⟩
  · obtain ⟨i, hi, rfl⟩ := List.mem_map.1 h
    have := List.mem_range.1 hi
    exact ⟨by omega, rfl⟩

/-- Witness for C10 at concrete inputs: one moving and one static handle,
zero_samples 2, space_samples 1, identity projection and a sampler that
returns the empty remainder. -/
theorem train_step_handle_batch_layout_witness :
    (DeformTrainer.samples witnessConfig witnessOracles
          witnessState.sourceParams witnessMov witnessStat).take witnessMov.length =
        witnessMov.map
          ((witnessOracles.projectNearest witnessState.sourceParams)^[witnessConfig.numProjections]) ∧
      ((DeformTrainer.samples witnessConfig witnessOracles
          witnessState.sourceParams witnessMov witnessStat).drop
          witnessMov.length).take witnessStat.length =
        witnessStat.map
          ((witnessOracles.projectNearest witnessState.sourceParams)^[witnessConfig.numProjections]) ∧
      DeformTrainer.moving_idx witnessOracles witnessState.sourceParams
          witnessConfig.numProjections witnessMov witnessStat =
        (List.range witnessMov.length).map (fun i => (i, 0)) ∧
      DeformTrainer.static_idx witnessOracles witnessState.sourceParams
          witnessConfig.numProjections witnessMov witnessStat =
        (List.range witnessStat.length).map (fun i => (witnessMov.length + i, 0)) ∧
      (DeformTrainer.rotations witnessConfig witnessOracles
          witnessState.sourceParams witnessState.modelParams witnessMov witnessStat).length =
        (DeformTrainer.samples witnessConfig witnessOracles
          witnessState.sourceParams witnessMov witnessStat).length ∧
      (DeformTrainer.translations witnessConfig witnessOracles
          witnessState.sourceParams witnessState.modelParams witnessMov witnessStat).length =
        (DeformTrainer.samples witnessConfig witnessOracles
          witnessState.sourceParams witnessMov witnessStat).length ∧
      (DeformTrainer.samples witnessConfig witnessOracles
          witnessState.sourceParams witnessMov witnessStat).length =
        witnessConfig.zeroSamples + witnessConfig.spaceSamples ∧
      ∀ pr ∈ DeformTrainer.moving_idx witnessOracles witnessState.sourceParams
            witnessConfig.numProjections witnessMov witnessStat ++
          DeformTrainer.static_idx witnessOracles witnessState.sourceParams
            witnessConfig.numProjections witnessMov witnessStat,
        pr.1 <
            (DeformTrainer.rotations witnessConfig witnessOracles
              witnessState.sourceParams witnessState.modelParams witnessMov
              witnessStat).length ∧
          pr.2 = 0 :=
  train_step_handle_batch_layout witnessConfig witnessOracles witnessMov
    witnessStat witnessState (by decide) (by decide)
